import Mathlib

/-!
Shallow embedding of the ZenBudget transaction store, month projector,
aggregator and mutation handlers (source: `src/App.tsx`), together with
theorems settling the specification claims about them.

Dates are modelled structurally at minute granularity, mirroring the
components the source reads off a JS `Date` (`getFullYear`, `getMonth`,
`getDate`, `getHours`, `getMinutes`); `timeKey` is a strictly monotone
encoding of those components matching `getTime`-ordering on valid dates.
Amounts are modelled as `Rat`.
-/

namespace ZenBudget

inductive TxType where
  | expense
  | income
deriving DecidableEq, Repr

inductive RecurrenceFrequency where
  | none
  | daily
  | weekly
  | monthly
  | yearly
deriving DecidableEq, Repr

/-- A calendar date-time at minute granularity.  `month` is 0-indexed as in
JS `Date.getMonth()`. -/
structure DateTime where
  year : Int
  month : Nat
  day : Nat
  hour : Nat
  minute : Nat
deriving DecidableEq, Repr

/-- A transaction master record (`types.ts`).  `recurrence := Option.none`
models the field being absent (JS `undefined`, which is falsy), while
`some .none` models the literal string `'none'` (which is truthy). -/
structure Transaction where
  id : String
  amount : Rat
  categoryId : String
  description : String
  date : DateTime
  type : TxType
  isRecurring : Bool
  recurrence : Option RecurrenceFrequency
deriving DecidableEq, Repr

structure Category where
  id : String
  name : String
  color : String
  icon : String
  budgetLimit : Option Rat
deriving DecidableEq, Repr

/-- The slice of `AppState` the mutation handlers touch. -/
structure AppState where
  categories : List Category
  transactions : List Transaction
deriving DecidableEq, Repr

def isLeapYear (y : Int) : Bool :=
  (y % 4 == 0 && y % 100 != 0) || y % 400 == 0

/-- `new Date(year, month + 1, 0).getDate()`: the number of days in the
0-indexed `month` of `year`. -/
def daysInMonth (y : Int) (m : Nat) : Nat :=
  if m = 1 then (if isLeapYear y then 29 else 28)
  else if m = 3 ∨ m = 5 ∨ m = 8 ∨ m = 10 then 30
  else 31

/-- A strictly monotone encoding of the date components; for valid dates it
orders exactly as JS `Date.getTime()`. -/
def timeKey (d : DateTime) : Int :=
  (((d.year * 12 + (d.month : Int)) * 32 + (d.day : Int)) * 24 + (d.hour : Int)) * 60
    + (d.minute : Int)

/-- Target month `(y2, m2)` is at or after month `(y1, m1)`. -/
def monthLE (y1 : Int) (m1 : Nat) (y2 : Int) (m2 : Nat) : Prop :=
  y1 < y2 ∨ (y1 = y2 ∧ m1 ≤ m2)

instance (y1 : Int) (m1 : Nat) (y2 : Int) (m2 : Nat) :
    Decidable (monthLE y1 m1 y2 m2) := by
  unfold monthLE; infer_instance

/-- Body of the `flatMap` over recurring masters in
`currentMonthTransactions` (`App.tsx` lines 120-150): the instances a single
recurring master `t` contributes to the view of `(year, month)`. -/
def projectOne (year : Int) (month : Nat) (t : Transaction) : List Transaction :=
  if t.date.year > year ∨ (t.date.year = year ∧ t.date.month > month) then []
  else if t.recurrence = some RecurrenceFrequency.monthly ∨ t.recurrence = Option.none then
    [{ t with date := ⟨year, month, min t.date.day (daysInMonth year month),
                       t.date.hour, t.date.minute⟩ }]
  else if t.date.month = month ∧ t.date.year = year then [t]
  else []

/-- `App.tsx` lines 113-117: non-recurring transactions dated in the viewed
month. -/
def regularTransactions (ts : List Transaction) (year : Int) (month : Nat) :
    List Transaction :=
  ts.filter fun t => !t.isRecurring && t.date.month == month && t.date.year == year

/-- `App.tsx` lines 120-150: projected instances of the recurring masters. -/
def projectedRecurring (ts : List Transaction) (year : Int) (month : Nat) :
    List Transaction :=
  (ts.filter fun t => t.isRecurring).flatMap (projectOne year month)

/-- The sort comparator of `App.tsx` line 153 (`(a,b) => time(b) - time(a)`,
i.e. descending by effective date). -/
def dateDesc (a b : Transaction) : Bool :=
  decide (timeKey b.date ≤ timeKey a.date)

/-- `currentMonthTransactions` (`App.tsx` lines 107-154) as a function of the
master list and the viewed `(year, month)`: the month projector `project` of
the specification.  JS `Array.prototype.sort` is stable, hence `mergeSort`. -/
def project (ts : List Transaction) (year : Int) (month : Nat) : List Transaction :=
  (regularTransactions ts year month ++ projectedRecurring ts year month).mergeSort dateDesc

/-- `App.tsx` lines 166-171: configured monthly income plus income
transactions of the effective list. -/
def totalIncome (monthlyIncome : Rat) (ts : List Transaction) : Rat :=
  monthlyIncome + (ts.filter fun t => t.type == TxType.income).foldl (fun sum t => sum + t.amount) 0

/-- `App.tsx` lines 173-177. -/
def totalExpenses (ts : List Transaction) : Rat :=
  (ts.filter fun t => t.type == TxType.expense).foldl (fun sum t => sum + t.amount) 0

/-- `App.tsx` line 180: `totalIncome > 0 ? (totalExpenses / totalIncome) * 100 : 0`. -/
def spendPercentage (monthlyIncome : Rat) (ts : List Transaction) : Rat :=
  if totalIncome monthlyIncome ts > 0 then
    (totalExpenses ts / totalIncome monthlyIncome ts) * 100
  else 0

/-- The field rewrite applied to the matching record in the update branch of
`handleSaveTransaction` (`App.tsx` lines 258-269). -/
def updateFields (amount : Rat) (description selectedCategory : String)
    (txType : TxType) (recurring : Bool) (recurrenceFreq : RecurrenceFrequency)
    (t : Transaction) : Transaction :=
  { t with
    amount := amount
    description := description
    categoryId := if txType = TxType.income then "income" else selectedCategory
    type := txType
    isRecurring := recurring
    recurrence := some (if recurring then recurrenceFreq else RecurrenceFrequency.none) }

/-- Update branch of `handleSaveTransaction` (`App.tsx` lines 253-274):
map over the master list, rewriting the record(s) whose `id` matches
`editingId` and leaving every other record untouched. -/
def updateTransaction (ts : List Transaction) (editingId : String) (amount : Rat)
    (description selectedCategory : String) (txType : TxType) (recurring : Bool)
    (recurrenceFreq : RecurrenceFrequency) : List Transaction :=
  ts.map fun t =>
    if t.id = editingId then
      updateFields amount description selectedCategory txType recurring recurrenceFreq t
    else t

/-- Default date logic of the create branch of `handleSaveTransaction`
(`App.tsx` lines 278-284): today when the viewed month is the real current
month, otherwise the viewed date with its day set to 15 (`setDate(15)`
changes only the day-of-month). -/
def makeTxDate (currentDate today : DateTime) : DateTime :=
  if currentDate.month = today.month ∧ currentDate.year = today.year then today
  else { currentDate with day := 15 }

/-- Create branch of `handleSaveTransaction` (`App.tsx` lines 286-295). -/
def createTransaction (newId : String) (currentDate today : DateTime) (amount : Rat)
    (description selectedCategory : String) (txType : TxType) (recurring : Bool)
    (recurrenceFreq : RecurrenceFrequency) : Transaction :=
  { id := newId
    amount := amount
    categoryId := if txType = TxType.income then "income" else selectedCategory
    description := description
    date := makeTxDate currentDate today
    type := txType
    isRecurring := recurring
    recurrence := some (if recurring then recurrenceFreq else RecurrenceFrequency.none) }

/-- `handleDeleteTransaction` (`App.tsx` lines 374-381), the state update run
once the user confirms. -/
def handleDeleteTransaction (st : AppState) (id : String) : AppState :=
  { st with transactions := st.transactions.filter fun t => t.id != id }

/-- Master lookup of `handleEditClick` (`App.tsx` line 309):
`state.transactions.find(tr => tr.id === t.id) || t`. -/
def findMaster (ts : List Transaction) (t : Transaction) : Transaction :=
  (ts.find? fun tr => tr.id == t.id).getD t

/-! ### Concrete sample data used by witnesses and counterexamples -/

/-- A monthly recurring master anchored 2024-01-31 10:30 (month is 0-indexed). -/
def sampleMonthly : Transaction :=
  { id := "t1", amount := 50, categoryId := "c1", description := "rent",
    date := ⟨2024, 0, 31, 10, 30⟩, type := TxType.expense, isRecurring := true,
    recurrence := some RecurrenceFrequency.monthly }

/-- A one-off income transaction dated 2024-02-10 08:00. -/
def sampleOneOff : Transaction :=
  { id := "t2", amount := 20, categoryId := "income", description := "gift",
    date := ⟨2024, 1, 10, 8, 0⟩, type := TxType.income, isRecurring := false,
    recurrence := some RecurrenceFrequency.none }

/-- A daily recurring master anchored 2024-01-05 09:00. -/
def sampleDaily : Transaction :=
  { id := "t3", amount := 5, categoryId := "c2", description := "coffee",
    date := ⟨2024, 0, 5, 9, 0⟩, type := TxType.expense, isRecurring := true,
    recurrence := some RecurrenceFrequency.daily }

def txList0 : List Transaction := [sampleMonthly, sampleOneOff]

/-- A recurring master listed first, tied on effective date with
`tieRegular` in January 2024. -/
def tieRecurring : Transaction :=
  { id := "R", amount := 50, categoryId := "c1", description := "rent",
    date := ⟨2024, 0, 15, 10, 30⟩, type := TxType.expense, isRecurring := true,
    recurrence := some RecurrenceFrequency.monthly }

/-- A non-recurring transaction listed second, tied on effective date with
`tieRecurring` in January 2024. -/
def tieRegular : Transaction :=
  { id := "T", amount := 20, categoryId := "c1", description := "toys",
    date := ⟨2024, 0, 15, 10, 30⟩, type := TxType.expense, isRecurring := false,
    recurrence := some RecurrenceFrequency.none }

/-! ### Helper lemmas -/

lemma startAfter_iff (y1 : Int) (m1 : Nat) (y2 : Int) (m2 : Nat) :
    (y1 > y2 ∨ (y1 = y2 ∧ m1 > m2)) ↔ ¬ monthLE y1 m1 y2 m2 := by
  unfold monthLE; omega

lemma projectOne_monthly_of_le {t : Transaction} {y : Int} {m : Nat}
    (hrec : t.recurrence = some RecurrenceFrequency.monthly ∨ t.recurrence = Option.none)
    (hle : monthLE t.date.year t.date.month y m) :
    projectOne y m t =
      [{ t with date := ⟨y, m, min t.date.day (daysInMonth y m),
                         t.date.hour, t.date.minute⟩ }] := by
  unfold projectOne
  rw [if_neg (fun hg => (startAfter_iff ..).mp hg hle), if_pos hrec]

lemma projectOne_empty_of_lt {t : Transaction} {y : Int} {m : Nat}
    (hlt : ¬ monthLE t.date.year t.date.month y m) :
    projectOne y m t = [] := by
  unfold projectOne
  rw [if_pos ((startAfter_iff ..).mpr hlt)]

lemma projectOne_other {t : Transaction} {y : Int} {m : Nat}
    (hrec : t.recurrence = some RecurrenceFrequency.daily ∨
            t.recurrence = some RecurrenceFrequency.weekly ∨
            t.recurrence = some RecurrenceFrequency.yearly) :
    projectOne y m t = if t.date.month = m ∧ t.date.year = y then [t] else [] := by
  have hm : ¬ (t.recurrence = some RecurrenceFrequency.monthly ∨ t.recurrence = Option.none) := by
    rcases hrec with h | h | h <;> simp [h]
  unfold projectOne
  by_cases hg : t.date.year > y ∨ (t.date.year = y ∧ t.date.month > m)
  · rw [if_pos hg]
    have hne : ¬ (t.date.month = m ∧ t.date.year = y) := by omega
    rw [if_neg hne]
  · rw [if_neg hg, if_neg hm]

lemma mem_projectOne {u t : Transaction} {y : Int} {m : Nat}
    (h : u ∈ projectOne y m t) :
    u = { t with date := ⟨y, m, min t.date.day (daysInMonth y m),
                          t.date.hour, t.date.minute⟩ } ∨ u = t := by
  unfold projectOne at h
  split_ifs at h <;> simp_all

lemma mem_projectOne_id {u t : Transaction} {y : Int} {m : Nat}
    (h : u ∈ projectOne y m t) : u.id = t.id := by
  rcases mem_projectOne h with rfl | rfl <;> rfl

lemma mem_projectOne_isRecurring {u t : Transaction} {y : Int} {m : Nat}
    (h : u ∈ projectOne y m t) : u.isRecurring = t.isRecurring := by
  rcases mem_projectOne h with rfl | rfl <;> rfl

lemma projectOne_map_id (y : Int) (m : Nat) (t : Transaction) :
    (projectOne y m t).map (fun u => u.id) = [] ∨
    (projectOne y m t).map (fun u => u.id) = [t.id] := by
  unfold projectOne
  split_ifs <;> simp

lemma dateDesc_total : ∀ a b : Transaction, dateDesc a b || dateDesc b a := by
  intro a b
  unfold dateDesc
  rcases le_total (timeKey a.date) (timeKey b.date) with h | h <;> simp [h]

lemma dateDesc_trans : ∀ a b c : Transaction, dateDesc a b → dateDesc b c → dateDesc a c := by
  intro a b c
  unfold dateDesc
  simp only [decide_eq_true_eq]
  exact fun h1 h2 => le_trans h2 h1

lemma mem_project_iff {u : Transaction} {ts : List Transaction} {y : Int} {m : Nat} :
    u ∈ project ts y m ↔
      u ∈ regularTransactions ts y m ∨ u ∈ projectedRecurring ts y m := by
  unfold project
  rw [List.mem_mergeSort, List.mem_append]

lemma mem_regular_iff {u : Transaction} {ts : List Transaction} {y : Int} {m : Nat} :
    u ∈ regularTransactions ts y m ↔
      u ∈ ts ∧ u.isRecurring = false ∧ u.date.month = m ∧ u.date.year = y := by
  unfold regularTransactions
  simp [List.mem_filter]
  tauto

lemma mem_projected_iff {u : Transaction} {ts : List Transaction} {y : Int} {m : Nat} :
    u ∈ projectedRecurring ts y m ↔
      ∃ w, w ∈ ts ∧ w.isRecurring = true ∧ u ∈ projectOne y m w := by
  unfold projectedRecurring
  simp only [List.mem_flatMap, List.mem_filter]
  tauto

lemma mem_project_master {u : Transaction} {ts : List Transaction} {y : Int} {m : Nat}
    (h : u ∈ project ts y m) : ∃ w, w ∈ ts ∧ u.id = w.id := by
  rcases mem_project_iff.mp h with hr | hp
  · exact ⟨u, (mem_regular_iff.mp hr).1, rfl⟩
  · obtain ⟨w, hw, _, hu⟩ := mem_projected_iff.mp hp
    exact ⟨w, hw, mem_projectOne_id hu⟩

lemma id_inj {ts : List Transaction} (hnd : (ts.map fun u => u.id).Nodup)
    {a b : Transaction} (ha : a ∈ ts) (hb : b ∈ ts) (h : a.id = b.id) : a = b :=
  List.inj_on_of_nodup_map hnd ha hb h

lemma countP_projectOne_ne (y : Int) (m : Nat) {t u : Transaction} (h : u.id ≠ t.id) :
    (projectOne y m u).countP (fun v => v.id == t.id) = 0 := by
  rw [List.countP_eq_zero]
  intro v hv
  simp [mem_projectOne_id hv, h]

lemma countP_flatMap_projectOne (y : Int) (m : Nat) (t : Transaction) :
    ∀ l : List Transaction, t ∈ l → (l.map fun u => u.id).Nodup →
      (l.flatMap (projectOne y m)).countP (fun v => v.id == t.id) =
        (projectOne y m t).countP (fun v => v.id == t.id) := by
  intro l
  induction l with
  | nil => simp
  | cons a l ih =>
    intro hmem hnd
    rw [List.map_cons, List.nodup_cons] at hnd
    obtain ⟨hna, hnd⟩ := hnd
    rw [List.flatMap_cons, List.countP_append]
    rcases List.mem_cons.mp hmem with rfl | hmem
    · have hzero : (l.flatMap (projectOne y m)).countP (fun v => v.id == t.id) = 0 := by
        rw [List.countP_eq_zero]
        intro v hv
        obtain ⟨w, hw, hvw⟩ := List.mem_flatMap.mp hv
        have hvid : v.id = w.id := mem_projectOne_id hvw
        simp only [beq_iff_eq, decide_eq_true_eq]
        intro heq
        apply hna
        have hmw : w.id ∈ l.map (fun u => u.id) := List.mem_map_of_mem _ hw
        rwa [← hvid, heq] at hmw
      rw [hzero, Nat.add_zero]
    · have hne : a.id ≠ t.id := by
        intro heq
        exact hna (heq ▸ List.mem_map_of_mem (fun u => u.id) hmem)
      rw [countP_projectOne_ne y m hne, ih hmem hnd, Nat.zero_add]

lemma countP_regular_zero {ts : List Transaction} {y : Int} {m : Nat} {t : Transaction}
    (ht : t ∈ ts) (hrec : t.isRecurring = true) (hnd : (ts.map fun u => u.id).Nodup) :
    (regularTransactions ts y m).countP (fun v => v.id == t.id) = 0 := by
  rw [List.countP_eq_zero]
  intro u hu
  obtain ⟨hu_ts, hu_rec, _, _⟩ := mem_regular_iff.mp hu
  simp only [beq_iff_eq, decide_eq_true_eq]
  intro heq
  have := id_inj hnd hu_ts ht heq
  subst this
  rw [hrec] at hu_rec
  exact Bool.true_eq_false.mp hu_rec

lemma filter_isRecurring_map_id_nodup {ts : List Transaction}
    (hnd : (ts.map fun u => u.id).Nodup) :
    ((ts.filter fun t => t.isRecurring).map fun u => u.id).Nodup :=
  List.Nodup.sublist ((List.filter_sublist ts).map (fun u => u.id)) hnd

lemma countP_id_project {ts : List Transaction} {y : Int} {m : Nat} {t : Transaction}
    (ht : t ∈ ts) (hrec : t.isRecurring = true) (hnd : (ts.map fun u => u.id).Nodup) :
    (project ts y m).countP (fun v => v.id == t.id) =
      (projectOne y m t).countP (fun v => v.id == t.id) := by
  unfold project
  rw [(List.mergeSort_perm _ _).countP_eq, List.countP_append,
      countP_regular_zero ht hrec hnd, Nat.zero_add]
  unfold projectedRecurring
  exact countP_flatMap_projectOne y m t _ (List.mem_filter.mpr ⟨ht, hrec⟩)
    (filter_isRecurring_map_id_nodup hnd)

lemma filter_key_mergeSort (l : List Transaction) (k : Int) :
    (l.mergeSort dateDesc).filter (fun u => timeKey u.date == k) =
      l.filter (fun u => timeKey u.date == k) := by
  have hpw : (l.filter fun u => timeKey u.date == k).Pairwise (dateDesc · ·) := by
    apply List.pairwise_of_forall_mem_list
    intro a ha b hb
    have hak : timeKey a.date = k := by
      have := (List.mem_filter.mp ha).2; simpa using this
    have hbk : timeKey b.date = k := by
      have := (List.mem_filter.mp hb).2; simpa using this
    unfold dateDesc
    simp [hak, hbk]
  have hsub : List.Sublist (l.filter fun u => timeKey u.date == k) (l.mergeSort dateDesc) :=
    List.sublist_mergeSort dateDesc_trans dateDesc_total hpw (List.filter_sublist l)
  have hsub2 : List.Sublist (l.filter fun u => timeKey u.date == k)
      ((l.mergeSort dateDesc).filter (fun u => timeKey u.date == k)) := by
    have h2 := hsub.filter (fun u => timeKey u.date == k)
    rwa [List.filter_eq_self.mpr (fun a ha => (List.mem_filter.mp ha).2)] at h2
  have hlen : ((l.mergeSort dateDesc).filter fun u => timeKey u.date == k).length =
      (l.filter fun u => timeKey u.date == k).length := by
    rw [← List.countP_eq_length_filter, ← List.countP_eq_length_filter]
    exact (List.mergeSort_perm l dateDesc).countP_eq _
  exact (hsub2.eq_of_length hlen.symm).symm

lemma map_id_flatMap_sublist (y : Int) (m : Nat) :
    ∀ l : List Transaction,
      List.Sublist ((l.flatMap (projectOne y m)).map fun u => u.id)
        (l.map fun u => u.id) := by
  intro l
  induction l with
  | nil => simp
  | cons a l ih =>
    rw [List.flatMap_cons, List.map_append, List.map_cons]
    rcases projectOne_map_id y m a with h | h
    · rw [h, List.nil_append]
      exact ih.cons _
    · rw [h, List.singleton_append]
      exact ih.cons₂ _

/-! ### Claim theorems -/

/-- Claim C5: `spendPercentage` equals `totalExpenses / totalIncome * 100`
when `totalIncome > 0` and equals `0` otherwise; in particular it is `0`
(never an undefined value) when `totalIncome = 0`. -/
theorem spendPercentage_guarded (b : Rat) (ts : List Transaction) :
    (0 < totalIncome b ts →
      spendPercentage b ts = totalExpenses ts / totalIncome b ts * 100) ∧
    (¬ 0 < totalIncome b ts → spendPercentage b ts = 0) ∧
    (totalIncome b ts = 0 → spendPercentage b ts = 0) := by
  unfold spendPercentage
  refine ⟨fun h => ?_, fun h => ?_, fun h => ?_⟩
  · rw [if_pos h]
  · rw [if_neg h]
  · rw [if_neg (by rw [h]; exact lt_irrefl 0)]

/-- Witness for C5 at concrete inputs. -/
theorem spendPercentage_guarded_witness :
    (0 < totalIncome 100 txList0 ∧
      spendPercentage 100 txList0 = totalExpenses txList0 / totalIncome 100 txList0 * 100) ∧
    (totalIncome 0 [] = 0 ∧ spendPercentage 0 [] = 0) := by
  have h1 : 0 < totalIncome 100 txList0 := by
    simp [totalIncome, txList0, sampleMonthly, sampleOneOff, List.filter, List.foldl]
    norm_num
  have h2 : totalIncome 0 [] = 0 := by
    simp [totalIncome]
  exact ⟨⟨h1, (spendPercentage_guarded 100 txList0).1 h1⟩,
         ⟨h2, (spendPercentage_guarded 0 []).2.2 h2⟩⟩

/-- Claim C6: a recurring master whose `recurrence` is `daily`, `weekly` or
`yearly` is emitted only in its literal anchor month: its per-master
contribution is `[t]` when the anchor's year/month equal the target and `[]`
otherwise, and (with distinct ids) `project` contains no instance of it for
any other target month. -/
theorem other_frequencies_literal_month (ts : List Transaction) (y : Int) (m : Nat)
    (t : Transaction)
    (hrec : t.recurrence = some RecurrenceFrequency.daily ∨
            t.recurrence = some RecurrenceFrequency.weekly ∨
            t.recurrence = some RecurrenceFrequency.yearly) :
    projectOne y m t = (if t.date.month = m ∧ t.date.year = y then [t] else []) ∧
    (t ∈ ts → t.isRecurring = true → (ts.map fun u => u.id).Nodup →
      ¬ (t.date.month = m ∧ t.date.year = y) →
      (project ts y m).countP (fun v => v.id == t.id) = 0) := by
  refine ⟨projectOne_other hrec, fun ht hr hnd hne => ?_⟩
  rw [countP_id_project ht hr hnd, projectOne_other hrec, if_neg hne]
  rfl

/-- Witness for C6: the daily sample is not shown in February 2024. -/
theorem other_frequencies_literal_month_witness :
    sampleDaily.recurrence = some RecurrenceFrequency.daily ∧
    sampleDaily ∈ [sampleDaily] ∧
    sampleDaily.isRecurring = true ∧
    (([sampleDaily].map fun u => u.id)).Nodup ∧
    ¬ (sampleDaily.date.month = 1 ∧ sampleDaily.date.year = 2024) ∧
    (project [sampleDaily] 2024 1).countP (fun v => v.id == sampleDaily.id) = 0 :=
  ⟨rfl, by decide, rfl, by decide, by decide,
   (other_frequencies_literal_month [sampleDaily] 2024 1 sampleDaily (Or.inl rfl)).2
     (by decide) rfl (by decide) (by decide)⟩

/-- Claim C10: the update branch applies the same normalisation as create:
an updated record (matched by `id`) gets the `"income"` sentinel category
whenever the edited type is income, and its recurrence is the chosen
frequency when `isRecurring` is true and `'none'` otherwise. -/
theorem update_normalization (ts : List Transaction) (eid : String) (a : Rat)
    (d c : String) (ty : TxType) (r : Bool) (f : RecurrenceFrequency)
    (u : Transaction)
    (hu : u ∈ updateTransaction ts eid a d c ty r f) (hid : u.id = eid) :
    (ty = TxType.income → u.categoryId = "income") ∧
    (r = true → u.recurrence = some f) ∧
    (r = false → u.recurrence = some RecurrenceFrequency.none) := by
  unfold updateTransaction at hu
  obtain ⟨t, ht, heq⟩ := List.mem_map.mp hu
  by_cases h : t.id = eid
  · rw [if_pos h] at heq
    subst heq
    refine ⟨fun hty => ?_, fun hr => ?_, fun hr => ?_⟩
    · simp [updateFields, hty]
    · simp [updateFields, hr]
    · simp [updateFields, hr]
  · rw [if_neg h] at heq
    subst heq
    exact absurd hid h

/-- Witness for C10 at concrete inputs: editing `sampleOneOff` to a
non-recurring income forces the sentinel category and recurrence `'none'`. -/
theorem update_normalization_witness :
    updateFields 30 "salary" "c9" TxType.income false RecurrenceFrequency.monthly
        sampleOneOff ∈
      updateTransaction txList0 "t2" 30 "salary" "c9" TxType.income false
        RecurrenceFrequency.monthly ∧
    (updateFields 30 "salary" "c9" TxType.income false RecurrenceFrequency.monthly
        sampleOneOff).id = "t2" ∧
    (updateFields 30 "salary" "c9" TxType.income false RecurrenceFrequency.monthly
        sampleOneOff).categoryId = "income" ∧
    (updateFields 30 "salary" "c9" TxType.income false RecurrenceFrequency.monthly
        sampleOneOff).recurrence = some RecurrenceFrequency.none :=
  ⟨by decide, by decide,
   (update_normalization txList0 "t2" 30 "salary" "c9" TxType.income false
      RecurrenceFrequency.monthly _ (by decide) (by decide)).1 rfl,
   (update_normalization txList0 "t2" 30 "salary" "c9" TxType.income false
      RecurrenceFrequency.monthly _ (by decide) (by decide)).2.2 rfl⟩

/-- Counterexample for C8: when the viewed month (May 2024, viewed at 10:30)
is not the real current month (June 2024), the created transaction's date is
the 15th of the viewed month at the *viewed date's time-of-day* (10:30), not
at midnight as the claim states. -/
theorem create_date_not_midnight :
    (createTransaction "n1" ⟨2024, 4, 20, 10, 30⟩ ⟨2024, 5, 1, 9, 0⟩ 10 "desc" "c1"
        TxType.expense false RecurrenceFrequency.monthly).date =
      ⟨2024, 4, 15, 10, 30⟩ ∧
    (createTransaction "n1" ⟨2024, 4, 20, 10, 30⟩ ⟨2024, 5, 1, 9, 0⟩ 10 "desc" "c1"
        TxType.expense false RecurrenceFrequency.monthly).date ≠
      ⟨2024, 4, 15, 0, 0⟩ := by
  decide

/-- Claim C8 (amended): `create` forces the `"income"` sentinel category for
income, sets recurrence to the chosen frequency iff `isRecurring` and to
`'none'` otherwise, and defaults the date to "now" when the viewed month is
the real current month and otherwise to the 15th of the viewed month with
the viewed date's time-of-day preserved (the source only calls
`setDate(15)`, which does not reset the time to midnight). -/
theorem create_normalization (nid : String) (viewed today : DateTime) (a : Rat)
    (d c : String) (ty : TxType) (r : Bool) (f : RecurrenceFrequency) :
    (createTransaction nid viewed today a d c ty r f).id = nid ∧
    (ty = TxType.income →
      (createTransaction nid viewed today a d c ty r f).categoryId = "income") ∧
    (ty ≠ TxType.income →
      (createTransaction nid viewed today a d c ty r f).categoryId = c) ∧
    (r = true →
      (createTransaction nid viewed today a d c ty r f).recurrence = some f) ∧
    (r = false →
      (createTransaction nid viewed today a d c ty r f).recurrence =
        some RecurrenceFrequency.none) ∧
    (viewed.month = today.month ∧ viewed.year = today.year →
      (createTransaction nid viewed today a d c ty r f).date = today) ∧
    (¬ (viewed.month = today.month ∧ viewed.year = today.year) →
      (createTransaction nid viewed today a d c ty r f).date =
        ⟨viewed.year, viewed.month, 15, viewed.hour, viewed.minute⟩) := by
  refine ⟨rfl, fun hty => ?_, fun hty => ?_, fun hr => ?_, fun hr => ?_,
          fun hm => ?_, fun hm => ?_⟩
  · simp [createTransaction, hty]
  · simp [createTransaction, hty]
  · simp [createTransaction, hr]
  · simp [createTransaction, hr]
  · simp [createTransaction, makeTxDate, hm]
  · simp [createTransaction, makeTxDate, hm]

/-- Witness for C8 (amended) at concrete inputs. -/
theorem create_normalization_witness :
    (createTransaction "n2" ⟨2024, 4, 20, 10, 30⟩ ⟨2024, 4, 22, 9, 0⟩ 10 "pay" "c1"
        TxType.income true RecurrenceFrequency.weekly).categoryId = "income" ∧
    (createTransaction "n2" ⟨2024, 4, 20, 10, 30⟩ ⟨2024, 4, 22, 9, 0⟩ 10 "pay" "c1"
        TxType.income true RecurrenceFrequency.weekly).recurrence =
      some RecurrenceFrequency.weekly ∧
    (createTransaction "n2" ⟨2024, 4, 20, 10, 30⟩ ⟨2024, 4, 22, 9, 0⟩ 10 "pay" "c1"
        TxType.income true RecurrenceFrequency.weekly).date = ⟨2024, 4, 22, 9, 0⟩ ∧
    ¬ ((⟨2024, 4, 20, 10, 30⟩ : DateTime).month = (⟨2024, 5, 1, 9, 0⟩ : DateTime).month ∧
       (⟨2024, 4, 20, 10, 30⟩ : DateTime).year = (⟨2024, 5, 1, 9, 0⟩ : DateTime).year) ∧
    (createTransaction "n1" ⟨2024, 4, 20, 10, 30⟩ ⟨2024, 5, 1, 9, 0⟩ 10 "desc" "c1"
        TxType.expense false RecurrenceFrequency.monthly).date =
      ⟨2024, 4, 15, 10, 30⟩ :=
  ⟨(create_normalization "n2" ⟨2024, 4, 20, 10, 30⟩ ⟨2024, 4, 22, 9, 0⟩ 10 "pay" "c1"
      TxType.income true RecurrenceFrequency.weekly).2.1 rfl,
   (create_normalization "n2" ⟨2024, 4, 20, 10, 30⟩ ⟨2024, 4, 22, 9, 0⟩ 10 "pay" "c1"
      TxType.income true RecurrenceFrequency.weekly).2.2.2.1 rfl,
   (create_normalization "n2" ⟨2024, 4, 20, 10, 30⟩ ⟨2024, 4, 22, 9, 0⟩ 10 "pay" "c1"
      TxType.income true RecurrenceFrequency.weekly).2.2.2.2.2.1 (by decide),
   by decide,
   (create_normalization "n1" ⟨2024, 4, 20, 10, 30⟩ ⟨2024, 5, 1, 9, 0⟩ 10 "desc" "c1"
      TxType.expense false RecurrenceFrequency.monthly).2.2.2.2.2.2 (by decide)⟩

/-- Claim C1: a recurring master with `recurrence = 'monthly'` (or unset
while `isRecurring`) contributes, for every target month at or after its
anchor month, exactly the singleton instance whose date is the target
year/month with the day clamped to `min(anchor day, days in target month)`
and the anchor's hour/minute, every other field (including `id`) verbatim;
that instance is in `project`, and with distinct ids it is the only entry of
its id; for a target month strictly before the anchor month it contributes
nothing and no entry of its id appears. -/
theorem monthly_projection (ts : List Transaction) (y : Int) (m : Nat)
    (t : Transaction) (hrec : t.isRecurring = true)
    (hfreq : t.recurrence = some RecurrenceFrequency.monthly ∨
             t.recurrence = Option.none) :
    (monthLE t.date.year t.date.month y m →
      projectOne y m t =
        [{ t with date := ⟨y, m, min t.date.day (daysInMonth y m),
                           t.date.hour, t.date.minute⟩ }] ∧
      (t ∈ ts →
        { t with date := ⟨y, m, min t.date.day (daysInMonth y m),
                          t.date.hour, t.date.minute⟩ } ∈ project ts y m) ∧
      (t ∈ ts → (ts.map fun u => u.id).Nodup →
        (project ts y m).countP (fun v => v.id == t.id) = 1)) ∧
    (¬ monthLE t.date.year t.date.month y m →
      projectOne y m t = [] ∧
      (t ∈ ts → (ts.map fun u => u.id).Nodup →
        (project ts y m).countP (fun v => v.id == t.id) = 0)) := by
  constructor
  · intro hle
    have hsingle := projectOne_monthly_of_le hfreq hle
    refine ⟨hsingle, fun ht => ?_, fun ht hnd => ?_⟩
    · apply mem_project_iff.mpr
      right
      apply mem_projected_iff.mpr
      exact ⟨t, ht, hrec, by rw [hsingle]; exact List.mem_singleton_self _⟩
    · rw [countP_id_project ht hrec hnd, hsingle]
      simp
  · intro hlt
    have hempty := projectOne_empty_of_lt hlt
    refine ⟨hempty, fun ht hnd => ?_⟩
    rw [countP_id_project ht hrec hnd, hempty]
    rfl

/-- Witness for C1: the monthly master anchored 2024-01-31 projects into
February 2024 (29 days, leap year) exactly once. -/
theorem monthly_projection_witness :
    sampleMonthly.isRecurring = true ∧
    sampleMonthly.recurrence = some RecurrenceFrequency.monthly ∧
    monthLE sampleMonthly.date.year sampleMonthly.date.month 2024 1 ∧
    sampleMonthly ∈ txList0 ∧
    ((txList0.map fun u => u.id)).Nodup ∧
    { sampleMonthly with
        date := ⟨2024, 1, min sampleMonthly.date.day (daysInMonth 2024 1),
                 sampleMonthly.date.hour, sampleMonthly.date.minute⟩ } ∈
      project txList0 2024 1 ∧
    (project txList0 2024 1).countP (fun v => v.id == sampleMonthly.id) = 1 :=
  ⟨rfl, rfl, by decide, by decide, by decide,
   ((monthly_projection txList0 2024 1 sampleMonthly rfl (Or.inl rfl)).1
      (by decide)).2.1 (by decide),
   ((monthly_projection txList0 2024 1 sampleMonthly rfl (Or.inl rfl)).1
      (by decide)).2.2 (by decide) (by decide)⟩

/-- Claim C2: a non-recurring transaction in the store is in `project` for a
month iff its date's year-month is that month; the non-recurring branch
contains no recurring record, and a recurring monthly master anchored in the
target month itself appears via the recurring branch (as the singleton
projected instance), never via the non-recurring branch. -/
theorem nonrecurring_month_filter (ts : List Transaction) (y : Int) (m : Nat)
    (t : Transaction) (hnr : t.isRecurring = false) :
    (t ∈ project ts y m ↔ t ∈ ts ∧ t.date.year = y ∧ t.date.month = m) ∧
    (∀ u, u ∈ regularTransactions ts y m → u.isRecurring = false) ∧
    (∀ w : Transaction, w.isRecurring = true →
      (w.recurrence = some RecurrenceFrequency.monthly ∨
       w.recurrence = Option.none) →
      w.date.year = y → w.date.month = m →
      w ∉ regularTransactions ts y m ∧
      projectOne y m w =
        [{ w with date := ⟨y, m, min w.date.day (daysInMonth y m),
                           w.date.hour, w.date.minute⟩ }]) := by
  refine ⟨⟨fun h => ?_, fun h => ?_⟩, fun u hu => (mem_regular_iff.mp hu).2.1,
          fun w hw hfreq hy hm => ⟨fun hmem => ?_, ?_⟩⟩
  · rcases mem_project_iff.mp h with hr | hp
    · obtain ⟨ht, _, hm, hy⟩ := mem_regular_iff.mp hr
      exact ⟨ht, hy, hm⟩
    · obtain ⟨w, _, hwrec, hu⟩ := mem_projected_iff.mp hp
      rw [mem_projectOne_isRecurring hu, hwrec] at hnr
      exact absurd hnr (by simp)
  · exact mem_project_iff.mpr (Or.inl (mem_regular_iff.mpr ⟨h.1, hnr, h.2.2, h.2.1⟩))
  · rw [(mem_regular_iff.mp hmem).2.1] at hw
    exact absurd hw (by simp)
  · exact projectOne_monthly_of_le hfreq (Or.inr ⟨hy, le_of_eq hm⟩)

/-- Witness for C2: the one-off income dated February 2024 is in the
February 2024 projection. -/
theorem nonrecurring_month_filter_witness :
    sampleOneOff.isRecurring = false ∧
    sampleOneOff ∈ txList0 ∧
    sampleOneOff.date.year = 2024 ∧ sampleOneOff.date.month = 1 ∧
    sampleOneOff ∈ project txList0 2024 1 :=
  ⟨rfl, by decide, rfl, rfl,
   (nonrecurring_month_filter txList0 2024 1 sampleOneOff rfl).1.mpr
     ⟨by decide, rfl, rfl⟩⟩

/-- Claim C4: `delete(id)` removes exactly the transactions with the given
id (categories and all other transactions unchanged); afterwards `project`
yields no transaction with that id for any month; and when no transaction
has that id, the state is unchanged (lookup-miss is a no-op). -/
theorem delete_removes_all_projections (st : AppState) (tid : String) :
    (handleDeleteTransaction st tid).categories = st.categories ∧
    (∀ t, t ∈ (handleDeleteTransaction st tid).transactions ↔
      t ∈ st.transactions ∧ t.id ≠ tid) ∧
    (∀ (y : Int) (m : Nat) (u : Transaction),
      u ∈ project (handleDeleteTransaction st tid).transactions y m →
        u.id ≠ tid) ∧
    ((∀ t, t ∈ st.transactions → t.id ≠ tid) →
      handleDeleteTransaction st tid = st) := by
  refine ⟨rfl, fun t => ?_, fun y m u hu => ?_, fun h => ?_⟩
  · unfold handleDeleteTransaction
    simp [List.mem_filter]
  · obtain ⟨w, hw, hid⟩ := mem_project_master hu
    unfold handleDeleteTransaction at hw
    simp only [List.mem_filter, bne_iff_ne, ne_eq] at hw
    rw [hid]
    exact hw.2
  · unfold handleDeleteTransaction
    have heq : (st.transactions.filter fun t => t.id != tid) = st.transactions := by
      rw [List.filter_eq_self]
      intro a ha
      simpa using h a ha
    rw [heq]

/-- Witness for C4: deleting `"t1"` leaves the one-off visible but nothing
with id `"t1"`, and deleting a missing id is a no-op. -/
theorem delete_removes_all_projections_witness :
    sampleOneOff ∈
      project (handleDeleteTransaction ⟨[], txList0⟩ "t1").transactions 2024 1 ∧
    sampleOneOff.id ≠ "t1" ∧
    (∀ t, t ∈ (AppState.mk [] txList0).transactions → t.id ≠ "zzz") ∧
    handleDeleteTransaction ⟨[], txList0⟩ "zzz" = ⟨[], txList0⟩ := by
  have hm : sampleOneOff ∈
      project (handleDeleteTransaction ⟨[], txList0⟩ "t1").transactions 2024 1 :=
    mem_project_iff.mpr (Or.inl (by decide))
  exact ⟨hm,
    (delete_removes_all_projections ⟨[], txList0⟩ "t1").2.2.1 2024 1 sampleOneOff hm,
    by decide,
    (delete_removes_all_projections ⟨[], txList0⟩ "zzz").2.2.2 (by decide)⟩

/-- Claim C9: if the input list's ids are pairwise distinct then `project`
emits at most one entry per id — the output's ids are pairwise distinct and
form a subset of the input's ids. -/
theorem projection_ids_nodup (ts : List Transaction) (y : Int) (m : Nat)
    (hnd : (ts.map fun u => u.id).Nodup) :
    ((project ts y m).map fun u => u.id).Nodup ∧
    (∀ i, i ∈ ((project ts y m).map fun u => u.id) →
      i ∈ (ts.map fun u => u.id)) := by
  constructor
  · have hperm : List.Perm ((project ts y m).map fun u => u.id)
        ((regularTransactions ts y m ++ projectedRecurring ts y m).map
          fun u => u.id) :=
      (List.mergeSort_perm _ _).map _
    rw [hperm.nodup_iff, List.map_append, List.nodup_append]
    refine ⟨?_, ?_, ?_⟩
    · exact List.Nodup.sublist ((List.filter_sublist ts).map _) hnd
    · exact List.Nodup.sublist
        ((map_id_flatMap_sublist y m _).trans ((List.filter_sublist ts).map _)) hnd
    · intro x hx1 hx2
      obtain ⟨u, hu, hux⟩ := List.mem_map.mp hx1
      obtain ⟨v, hv, hvx⟩ := List.mem_map.mp hx2
      obtain ⟨hu_ts, hu_nr, _, _⟩ := mem_regular_iff.mp hu
      obtain ⟨w, hw_ts, hw_rec, hvw⟩ :=
        mem_projected_iff.mp (show v ∈ projectedRecurring ts y m from hv)
      have huw : u = w :=
        id_inj hnd hu_ts hw_ts (by rw [hux, ← hvx, mem_projectOne_id hvw])
      rw [huw, hw_rec] at hu_nr
      exact absurd hu_nr (by simp)
  · intro i hi
    obtain ⟨u, hu, hui⟩ := List.mem_map.mp hi
    obtain ⟨w, hw, hid⟩ := mem_project_master hu
    rw [← hui, hid]
    exact List.mem_map_of_mem _ hw

/-- Witness for C9 at a concrete store and month. -/
theorem projection_ids_nodup_witness :
    ((txList0.map fun u => u.id)).Nodup ∧
    ((project txList0 2024 1).map fun u => u.id).Nodup :=
  ⟨by decide, (projection_ids_nodup txList0 2024 1 (by decide)).1⟩

/-- Claim C3: the update branch resolves `id` against the master list: the
matched record takes the new amount/description/category/type/recurrence
while keeping its `id` and original master `date`; every record with a
different id is untouched; the edit propagates to `project` for any month
under the same id; and `handleEditClick` resolves a (possibly projected)
record to a master with the same id. -/
theorem update_targets_master (ts : List Transaction) (eid : String) (a : Rat)
    (d c : String) (ty : TxType) (r : Bool) (f : RecurrenceFrequency) :
    (updateTransaction ts eid a d c ty r f).length = ts.length ∧
    (∀ (i : Nat) (hi : i < ts.length)
        (hj : i < (updateTransaction ts eid a d c ty r f).length),
      ((ts.get ⟨i, hi⟩).id = eid →
        (updateTransaction ts eid a d c ty r f).get ⟨i, hj⟩ =
          { id := (ts.get ⟨i, hi⟩).id
            amount := a
            categoryId := if ty = TxType.income then "income" else c
            description := d
            date := (ts.get ⟨i, hi⟩).date
            type := ty
            isRecurring := r
            recurrence := some (if r then f else RecurrenceFrequency.none) }) ∧
      ((ts.get ⟨i, hi⟩).id ≠ eid →
        (updateTransaction ts eid a d c ty r f).get ⟨i, hj⟩ = ts.get ⟨i, hi⟩)) ∧
    (∀ t : Transaction, t ∈ ts → t.id = eid → r = true →
      f = RecurrenceFrequency.monthly →
      ∀ (y : Int) (m : Nat), monthLE t.date.year t.date.month y m →
        { id := t.id, amount := a,
          categoryId := if ty = TxType.income then "income" else c,
          description := d,
          date := ⟨y, m, min t.date.day (daysInMonth y m),
                   t.date.hour, t.date.minute⟩,
          type := ty, isRecurring := true,
          recurrence := some RecurrenceFrequency.monthly } ∈
          project (updateTransaction ts eid a d c ty r f) y m) ∧
    (∀ t : Transaction, (findMaster ts t).id = t.id ∧
      (findMaster ts t ∈ ts ∨ findMaster ts t = t)) := by
  refine ⟨List.length_map .., fun i hi hj => ?_, fun t ht hid hr hf y m hle => ?_,
          fun t => ⟨?_, ?_⟩⟩
  · have key : (updateTransaction ts eid a d c ty r f).get ⟨i, hj⟩ =
        if (ts.get ⟨i, hi⟩).id = eid then updateFields a d c ty r f (ts.get ⟨i, hi⟩)
        else ts.get ⟨i, hi⟩ := by
      unfold updateTransaction at hj ⊢
      simp [List.get_eq_getElem, List.getElem_map]
    refine ⟨fun h => ?_, fun h => ?_⟩
    · rw [key, if_pos h]
      rfl
    · rw [key, if_neg h]
  · subst hr hf
    have hu : updateFields a d c ty true RecurrenceFrequency.monthly t ∈
        updateTransaction ts eid a d c ty true RecurrenceFrequency.monthly := by
      unfold updateTransaction
      refine List.mem_map.mpr ⟨t, ht, ?_⟩
      rw [if_pos hid]
    apply mem_project_iff.mpr
    right
    apply mem_projected_iff.mpr
    refine ⟨updateFields a d c ty true RecurrenceFrequency.monthly t, hu, rfl, ?_⟩
    have hsingle : projectOne y m
        (updateFields a d c ty true RecurrenceFrequency.monthly t) =
        [{ updateFields a d c ty true RecurrenceFrequency.monthly t with
            date := ⟨y, m, min t.date.day (daysInMonth y m),
                     t.date.hour, t.date.minute⟩ }] :=
      projectOne_monthly_of_le (Or.inl rfl) hle
    rw [hsingle]
    exact List.mem_singleton.mpr rfl
  · unfold findMaster
    cases hfind : ts.find? (fun tr => tr.id == t.id) with
    | none => rfl
    | some w =>
        have := List.find?_some hfind
        simpa using this
  · unfold findMaster
    cases hfind : ts.find? (fun tr => tr.id == t.id) with
    | none => exact Or.inr rfl
    | some w => exact Or.inl (by simpa using List.mem_of_find?_eq_some hfind)

/-- Witness for C3: editing `"t1"` to amount 75 keeps the anchor date and
propagates to the March 2024 projection under the same id. -/
theorem update_targets_master_witness :
    sampleMonthly ∈ txList0 ∧ sampleMonthly.id = "t1" ∧
    monthLE sampleMonthly.date.year sampleMonthly.date.month 2024 2 ∧
    { id := sampleMonthly.id, amount := 75,
      categoryId := if TxType.expense = TxType.income then "income" else "c1",
      description := "rent",
      date := ⟨2024, 2, min sampleMonthly.date.day (daysInMonth 2024 2),
               sampleMonthly.date.hour, sampleMonthly.date.minute⟩,
      type := TxType.expense, isRecurring := true,
      recurrence := some RecurrenceFrequency.monthly } ∈
      project (updateTransaction txList0 "t1" 75 "rent" "c1" TxType.expense true
        RecurrenceFrequency.monthly) 2024 2 ∧
    (findMaster txList0 sampleOneOff).id = sampleOneOff.id :=
  ⟨by decide, rfl, by decide,
   (update_targets_master txList0 "t1" 75 "rent" "c1" TxType.expense true
      RecurrenceFrequency.monthly).2.2.1 sampleMonthly (by decide) rfl rfl rfl
      2024 2 (by decide),
   ((update_targets_master txList0 "t1" 75 "rent" "c1" TxType.expense true
      RecurrenceFrequency.monthly).2.2.2 sampleOneOff).1⟩

/-- Counterexample for C7: in the store `[tieRecurring, tieRegular]` the two
January 2024 entries have equal effective dates, yet `project` lists
`tieRegular` (second in the input) before `tieRecurring` (first in the
input): ties do not follow the input list's order. -/
theorem sort_tiebreak_counterexample :
    project [tieRecurring, tieRegular] 2024 0 = [tieRegular, tieRecurring] ∧
    timeKey tieRecurring.date = timeKey tieRegular.date ∧
    tieRecurring ≠ tieRegular := by
  refine ⟨?_, by decide, by decide⟩
  have h1 : regularTransactions [tieRecurring, tieRegular] 2024 0 ++
      projectedRecurring [tieRecurring, tieRegular] 2024 0 =
        [tieRegular, tieRecurring] := by decide
  unfold project
  rw [h1]
  exact List.mergeSort_of_sorted (by decide)

/-- Claim C7 (amended): `project` is the stable descending-by-effective-date
sort of the concatenation of the matching non-recurring set and the
projected recurring set: the output is sorted descending, is a permutation
of that concatenation, and entries with equal effective dates keep the
concatenation's order (all matching non-recurring entries in input order,
then all projected recurring entries in input order) — not the input list's
interleaved order. -/
theorem sort_descending_stable (ts : List Transaction) (y : Int) (m : Nat) :
    (project ts y m).Pairwise (fun a b => timeKey b.date ≤ timeKey a.date) ∧
    List.Perm (project ts y m)
      (regularTransactions ts y m ++ projectedRecurring ts y m) ∧
    (∀ k : Int, (project ts y m).filter (fun u => timeKey u.date == k) =
      (regularTransactions ts y m ++ projectedRecurring ts y m).filter
        (fun u => timeKey u.date == k)) := by
  refine ⟨?_, List.mergeSort_perm _ _, fun k => filter_key_mergeSort _ k⟩
  have h := List.sorted_mergeSort dateDesc_trans dateDesc_total
      (regularTransactions ts y m ++ projectedRecurring ts y m)
  exact h.imp (fun hab => by simpa [dateDesc, decide_eq_true_eq] using hab)

end ZenBudget
